import Mathlib

/-!
# Verification development for rowlink (src/main.rs)

Shallow embedding of the targeting state machine, coordinate resolver,
click-emulation protocol and overlay lifecycle of `rowlink`, a
keyboard-driven screen-grid pointer-targeting overlay.

Modelling conventions:
* The mutable `Rowlink` application state (src/main.rs, `struct Rowlink`) is a
  Lean structure.  The `enigo` injection port and the `grid_cache` render cache
  carry no targeting state; injected pointer events are modelled as emitted
  `Effect`s and the cache is omitted.
* `IcedId::unique()` is a global fresh-id counter in the Rust runtime; it is
  modelled explicitly by a `next_id` counter threaded through the state.
  Rust's eager `unwrap_or(IcedId::unique())` always allocates, so the counter
  is bumped even when the fallback is unused.
* Every side effect of one `update` call (layer-shell requests, follow-up
  messages via `iced::Task::done`, pointer injections and sleeps) is recorded,
  in program/batch order, in an emitted `List Effect`.
* An `Option.unwrap()` on an empty option (a Rust panic) is modelled by
  `update` returning `none`.
* The Rust `f32` coordinate arithmetic is modelled exactly over `ℚ`; every
  claim-relevant value is far from a rounding boundary, so the rounded integer
  results agree with the `f32` computation.
* `i32`/`u32` casts in the letter decoding are modelled with explicit
  wrap-around arithmetic (`u32_sub`, `i32_of_u32`).
-/

/-- Layer of a layer-shell surface (`iced_layershell::reexport::Layer`);
only the two layers used by the program are modelled. -/
inductive Layer
  | Background
  | Overlay
deriving DecidableEq, Repr

/-- Keyboard interactivity of a surface
(`iced_layershell::reexport::KeyboardInteractivity`). -/
inductive KeyboardInteractivity
  | None
  | OnDemand
deriving DecidableEq, Repr

/-- The fields of `NewLayerShellSettings` that the program sets
(src/main.rs lines 105-113, 133-139, 213-219, 248-254). -/
structure NewLayerShellSettings where
  layer : Layer
  keyboard_interactivity : KeyboardInteractivity
  events_transparent : Bool
  exclusive_zone : Option ℤ
deriving DecidableEq, Repr

/-- Settings of the interactive overlay surface opened on `SignalReceived`
(src/main.rs lines 105-113). -/
def overlaySettings : NewLayerShellSettings :=
  ⟨Layer.Overlay, KeyboardInteractivity.OnDemand, true, some (-1)⟩

/-- Settings of the ghost (background, non-interactive) surface opened on
Escape, Space and subgrid completion (src/main.rs lines 133-139, 213-219,
248-254). -/
def ghostSettings : NewLayerShellSettings :=
  ⟨Layer.Background, KeyboardInteractivity.None, true, none⟩

/-- Logical keyboard keys as the `update` function discriminates them:
Escape, Space, a printable character, or any other named key (ignored). -/
inductive Key
  | escape
  | space
  | char (c : Char)
  | otherNamed
deriving DecidableEq, Repr

/-- The message type of the event loop (src/main.rs, `enum Message`).
`KeyPressed k` stands for `IcedEvent(Event::Keyboard(KeyPressed {..}))`;
`OtherEvent` stands for any other `IcedEvent`, which falls into the
catch-all arm of `update`. -/
inductive Message
  | Startup
  | SignalReceived
  | ExecuteMovePrecision (main_row main_col sub_row sub_col : ℤ)
  | ExecuteMoveCenter (target_cell : Option (ℤ × ℤ))
  | KeyPressed (k : Key)
  | OtherEvent
deriving DecidableEq, Repr

/-- Observable effects emitted while handling one message, in order:
layer-shell requests (`RemoveWindow`, opening a new surface, input-region
setup), follow-up messages queued with `iced::Task::done`, and the pointer
injections and sleeps performed through the `enigo` port. -/
inductive Effect
  | RemoveWindow (id : ℕ)
  | OpenSurface (id : ℕ) (settings : NewLayerShellSettings)
  | SetInputRegion (id : ℕ)
  | EmitMsg (m : Message)
  | MoveRel (dx dy : ℤ)
  | SleepMs (ms : ℕ)
  | Click
deriving DecidableEq, Repr

/-- The application state (src/main.rs, `struct Rowlink`).  The `enigo`
handle and `grid_cache` are effect/render-only and carry no targeting state;
`next_id` models the global `IcedId::unique()` counter. -/
structure Rowlink where
  input_buffer : List Char
  visible : Bool
  current_id : Option ℕ
  zoomed_cell : Option (ℤ × ℤ)
  next_id : ℕ
deriving DecidableEq, Repr

/-- The initial state `Rowlink::default()` (src/main.rs lines 47-58): empty
buffer, hidden, no surface handle, no zoomed cell. -/
def Rowlink.default : Rowlink :=
  ⟨[], false, none, none, 0⟩

/-- Rust `char::to_ascii_uppercase` (src/main.rs line 151). -/
def to_ascii_uppercase (c : Char) : Char :=
  if 97 ≤ c.toNat ∧ c.toNat ≤ 122 then Char.ofNat (c.toNat - 32) else c

/-- Rust `char::is_ascii_uppercase` (src/main.rs line 154). -/
def is_ascii_uppercase (c : Char) : Bool :=
  65 ≤ c.toNat && c.toNat ≤ 90

/-- Wrapping `u32` subtraction, for operands `< 2^32`. -/
def u32_sub (a b : ℕ) : ℕ :=
  (a + 2 ^ 32 - b) % 2 ^ 32

/-- Reinterpret a `u32` value as an `i32` (the Rust `as i32` cast). -/
def i32_of_u32 (v : ℕ) : ℤ :=
  if v < 2 ^ 31 then (v : ℤ) else (v : ℤ) - 2 ^ 32

/-- The letter decoding `(ch as u32 - 65) as i32`, i.e.
`(chars[i] as u32 - 'A' as u32) as i32` (src/main.rs lines 160-161). -/
def letter_index (c : Char) : ℤ :=
  i32_of_u32 (u32_sub c.toNat 65)

/-- Rust `f32::round` (round half away from zero), on the exact rational
value of the computation. -/
def f32_round (q : ℚ) : ℤ :=
  if 0 ≤ q then ⌊q + 1 / 2⌋ else -⌊1 / 2 - q⌋

/-- The key → `(sub_row, sub_col)` mapping of the 3×8 subgrid
(src/main.rs lines 172-201). -/
def sub_coords (c : Char) : Option (ℤ × ℤ) :=
  match c with
  | 'q' | 'Q' => some (0, 0)
  | 'w' | 'W' => some (0, 1)
  | 'e' | 'E' => some (0, 2)
  | 'r' | 'R' => some (0, 3)
  | 'u' | 'U' => some (0, 4)
  | 'i' | 'I' => some (0, 5)
  | 'o' | 'O' => some (0, 6)
  | 'p' | 'P' => some (0, 7)
  | 'a' | 'A' => some (1, 0)
  | 's' | 'S' => some (1, 1)
  | 'd' | 'D' => some (1, 2)
  | 'f' | 'F' => some (1, 3)
  | 'j' | 'J' => some (1, 4)
  | 'k' | 'K' => some (1, 5)
  | 'l' | 'L' => some (1, 6)
  | ';' => some (1, 7)
  | 'z' | 'Z' => some (2, 0)
  | 'x' | 'X' => some (2, 1)
  | 'c' | 'C' => some (2, 2)
  | 'v' | 'V' => some (2, 3)
  | 'n' | 'N' => some (2, 4)
  | 'm' | 'M' => some (2, 5)
  | ',' => some (2, 6)
  | '.' => some (2, 7)
  | _ => none

/-- The subgrid key labels drawn in the zoomed view
(src/main.rs lines 394-398). -/
def labels : List (List Char) :=
  [['Q', 'W', 'E', 'R', 'U', 'I', 'O', 'P'],
   ['A', 'S', 'D', 'F', 'J', 'K', 'L', ';'],
   ['Z', 'X', 'C', 'V', 'N', 'M', ',', '.']]

/-- Screen width constant used by both `ExecuteMove` handlers
(src/main.rs lines 271, 306). -/
def screen_w : ℚ := 1920

/-- Screen height constant (src/main.rs lines 272, 307). -/
def screen_h : ℚ := 1080

/-- Main-cell width `cell_w = screen_w / 26.0` (src/main.rs lines 274, 311). -/
def cell_w : ℚ := screen_w / 26

/-- Main-cell height `cell_h = screen_h / 26.0` (src/main.rs lines 275, 312). -/
def cell_h : ℚ := screen_h / 26

/-- Subgrid inner padding (src/main.rs line 281). -/
def grid_padding : ℚ := 4

/-- Sub-cell width `(cell_w - 2*padding) / 8` (src/main.rs lines 282, 286). -/
def sub_w : ℚ := (cell_w - grid_padding * 2) / 8

/-- Sub-cell height `(cell_h - 2*padding) / 3` (src/main.rs lines 283, 287). -/
def sub_h : ℚ := (cell_h - grid_padding * 2) / 3

/-- Modelled from the spec: the precision-target formula as §4.2 of the spec
states it, `main_origin + padding + sub_index * sub_size + sub_size/2` on
each axis, including the `+ padding` offset.  It exists only for refinement
comparison with the code's `executeMovePrecision`, which omits the offset. -/
def spec_precision_target (row col sub_row sub_col : ℤ) : ℚ × ℚ :=
  ((col : ℚ) * cell_w + grid_padding + (sub_col : ℚ) * sub_w + sub_w / 2,
   (row : ℚ) * cell_h + grid_padding + (sub_row : ℚ) * sub_h + sub_h / 2)

/-- Handler of `Message::ExecuteMovePrecision` (src/main.rs lines 270-303):
resolves the sub-cell target (note: no `+ padding` term in `target_x`,
`target_y`), rounds once, then injects clamp-move, target-move and click
with the interleaved sleeps. -/
def executeMovePrecision (main_row main_col sub_row sub_col : ℤ) : List Effect :=
  let main_x : ℚ := (main_col : ℚ) * cell_w
  let main_y : ℚ := (main_row : ℚ) * cell_h
  let target_x : ℚ := main_x + (sub_col : ℚ) * sub_w + sub_w / 2
  let target_y : ℚ := main_y + (sub_row : ℚ) * sub_h + sub_h / 2
  let final_x : ℤ := f32_round target_x
  let final_y : ℤ := f32_round target_y
  [Effect.MoveRel (-10000) (-10000), Effect.SleepMs 5,
   Effect.MoveRel final_x final_y, Effect.SleepMs 15, Effect.Click]

/-- Handler of `Message::ExecuteMoveCenter` (src/main.rs lines 305-335):
cell-center target for a zoomed cell, screen center otherwise, preceded by
the 60 ms wait for the interactive surface to vanish. -/
def executeMoveCenter (target_cell : Option (ℤ × ℤ)) : List Effect :=
  let t : ℚ × ℚ :=
    match target_cell with
    | some (r, c) => ((c : ℚ) * cell_w + cell_w / 2, (r : ℚ) * cell_h + cell_h / 2)
    | none => (screen_w / 2, screen_h / 2)
  [Effect.SleepMs 60, Effect.MoveRel (-10000) (-10000), Effect.SleepMs 5,
   Effect.MoveRel (f32_round t.1) (f32_round t.2), Effect.SleepMs 20, Effect.Click]

/-- Handler of `Key::Character` key presses (src/main.rs lines 150-236).
While no cell is zoomed, an ASCII letter is uppercased and buffered and a
full two-letter buffer is decoded into a zoomed cell; while zoomed, a mapped
subgrid key completes the session: reset, swap to the ghost surface and queue
`ExecuteMovePrecision`.  Returns `none` when `current_id.unwrap()` panics. -/
def handleChar (s : Rowlink) (c : Char) : Option (Rowlink × List Effect) :=
  let c_char := to_ascii_uppercase c
  match s.zoomed_cell with
  | none =>
      let buf := if is_ascii_uppercase c_char then s.input_buffer ++ [c_char]
                 else s.input_buffer
      match buf with
      | c0 :: c1 :: _ =>
          some ({ s with input_buffer := [],
                         zoomed_cell := some (letter_index c0, letter_index c1) }, [])
      | _ => some ({ s with input_buffer := buf }, [])
  | some mc =>
      match sub_coords c with
      | some sc =>
          match s.current_id with
          | none => none
          | some old_id =>
              some ({ s with visible := false, input_buffer := [],
                             zoomed_cell := none,
                             current_id := some s.next_id,
                             next_id := s.next_id + 1 },
                    [Effect.RemoveWindow old_id,
                     Effect.EmitMsg (Message.ExecuteMovePrecision mc.1 mc.2 sc.1 sc.2),
                     Effect.OpenSurface s.next_id ghostSettings])
      | none => some (s, [])

/-- The `update` function of the event loop (src/main.rs lines 96-338),
returning the new state and the emitted actions in batch order, or `none`
when an `unwrap()` on an empty `current_id` panics. -/
def update (s : Rowlink) (m : Message) : Option (Rowlink × List Effect) :=
  match m with
  | Message.Startup =>
      some ({ s with next_id := s.next_id + 1 },
            [Effect.SetInputRegion (s.current_id.getD s.next_id)])
  | Message.SignalReceived =>
      some ({ s with visible := true, input_buffer := [],
                     current_id := some s.next_id, next_id := s.next_id + 2 },
            [Effect.RemoveWindow (s.current_id.getD (s.next_id + 1)),
             Effect.OpenSurface s.next_id overlaySettings])
  | Message.KeyPressed Key.escape =>
      match s.current_id with
      | none => none
      | some old_id =>
          some ({ s with visible := false, input_buffer := [],
                         current_id := some s.next_id, next_id := s.next_id + 1 },
                [Effect.RemoveWindow old_id,
                 Effect.OpenSurface s.next_id ghostSettings])
  | Message.KeyPressed (Key.char c) => handleChar s c
  | Message.KeyPressed Key.space =>
      match s.current_id with
      | none => none
      | some old_id =>
          some ({ s with visible := false, input_buffer := [],
                         zoomed_cell := none,
                         current_id := some s.next_id, next_id := s.next_id + 1 },
                [Effect.RemoveWindow old_id,
                 Effect.EmitMsg (Message.ExecuteMoveCenter s.zoomed_cell),
                 Effect.OpenSurface s.next_id ghostSettings])
  | Message.KeyPressed Key.otherNamed => some (s, [])
  | Message.ExecuteMovePrecision mr mc sr sc => some (s, executeMovePrecision mr mc sr sc)
  | Message.ExecuteMoveCenter cell => some (s, executeMoveCenter cell)
  | Message.OtherEvent => some (s, [])

/-- Run a list of externally delivered messages through the event loop,
collecting all emitted actions; `none` when any step panics. -/
def runMsgs : Rowlink → List Message → Option (Rowlink × List Effect)
  | s, [] => some (s, [])
  | s, m :: ms =>
      match update s m with
      | none => none
      | some (s', acts) =>
          match runMsgs s' ms with
          | none => none
          | some (s'', acts') => some (s'', acts ++ acts')

/-- Expand a queued follow-up message (`Effect.EmitMsg`) into the actions its
handler performs; the `ExecuteMove` handlers do not change the state. -/
def drainAction (s : Rowlink) : Effect → List Effect
  | Effect.EmitMsg m =>
      match update s m with
      | some (_, acts) => acts
      | none => []
  | a => [a]

/-- The full observable trace of a message list: run the messages, then
expand queued follow-up messages one level (`ExecuteMove` handlers queue no
further messages). -/
def runTrace (s : Rowlink) (ms : List Message) : Option (List Effect) :=
  match runMsgs s ms with
  | none => none
  | some (s', acts) => some (acts.flatMap (drainAction s'))

/-- Pointer-injection events among the actions. -/
def isPointerEvent : Effect → Bool
  | Effect.MoveRel _ _ => true
  | Effect.Click => true
  | _ => false

/-- The subsequence of pointer-injection events of a trace. -/
def pointerEvents (acts : List Effect) : List Effect :=
  acts.filter isPointerEvent

/-- The targeting phase of the spec's data model, derived from the state:
`Idle` when the overlay is hidden, `ZoomedOnCell` when a main cell is
selected and the overlay shown, `SelectingMainCell` otherwise. -/
inductive Phase
  | Idle
  | SelectingMainCell (pending : ℕ)
  | ZoomedOnCell (row col : ℤ)
deriving DecidableEq, Repr

/-- Derive the phase of a state. -/
def phase (s : Rowlink) : Phase :=
  if s.visible then
    match s.zoomed_cell with
    | some rc => Phase.ZoomedOnCell rc.1 rc.2
    | none => Phase.SelectingMainCell s.input_buffer.length
  else Phase.Idle

/-! ## Helper lemmas and instances -/

/-- Evaluation rule for `f32_round` on nonnegative arguments. -/
theorem f32_round_eq (q : ℚ) (z : ℤ) (h0 : 0 ≤ q) (h1 : (z : ℚ) ≤ q + 1 / 2)
    (h2 : q + 1 / 2 < z + 1) : f32_round q = z := by
  rw [f32_round, if_pos h0]
  exact Int.floor_eq_iff.mpr ⟨h1, h2⟩

instance : DecidableEq (Phase × List Char × Option (ℤ × ℤ) × List Effect) :=
  inferInstance

/-! ## C1 — precision click target -/

/-- C1 counterexample: selecting main cell (0,1) (letters "AB") and subgrid
cell (1,2) (key "D"), the code's resolved precision target is (94, 17): the
handler adds no padding offset.  The spec's formula (with `+ padding`,
`spec_precision_target`) evaluates to (98, 21) instead, and the spec's worked
example value (95, 21) matches neither; in particular (94, 17) ≠ (95, 21). -/
theorem C1_counterexample :
    pointerEvents (executeMovePrecision 0 1 1 2) =
      [Effect.MoveRel (-10000) (-10000), Effect.MoveRel 94 17, Effect.Click] ∧
    (f32_round (spec_precision_target 0 1 1 2).1,
     f32_round (spec_precision_target 0 1 1 2).2) = (98, 21) ∧
    ((94 : ℤ), (17 : ℤ)) ≠ ((95 : ℤ), (21 : ℤ)) := by
  refine ⟨?_, ?_, by decide⟩
  · simp only [executeMovePrecision, pointerEvents, isPointerEvent, List.filter]
    norm_num
    constructor
    · apply f32_round_eq <;> norm_num [cell_w, sub_w, screen_w, grid_padding]
    · apply f32_round_eq <;> norm_num [cell_h, sub_h, screen_h, grid_padding]
  · simp only [spec_precision_target, Prod.mk.injEq]
    constructor
    · apply f32_round_eq <;> norm_num [cell_w, sub_w, screen_w, grid_padding]
    · apply f32_round_eq <;> norm_num [cell_h, sub_h, screen_h, grid_padding]

/-- C1 (amended): the resolved precision target is, on each axis,
`main_origin + sub_index * sub_size + sub_size/2` — padding shrinks the
sub-cell size but is not added as an offset — rounded to the nearest pixel
only at consumption; end to end, activating and pressing "A", "B" then "D"
injects exactly the clamp move, the move to (94, 17) and one click. -/
theorem C1_precision_formula (main_row main_col sub_row sub_col : ℤ) :
    pointerEvents (executeMovePrecision main_row main_col sub_row sub_col) =
      [Effect.MoveRel (-10000) (-10000),
       Effect.MoveRel
         (f32_round ((main_col : ℚ) * cell_w + (sub_col : ℚ) * sub_w + sub_w / 2))
         (f32_round ((main_row : ℚ) * cell_h + (sub_row : ℚ) * sub_h + sub_h / 2)),
       Effect.Click] ∧
    (runTrace Rowlink.default
        [Message.SignalReceived, Message.KeyPressed (Key.char 'A'),
         Message.KeyPressed (Key.char 'B'), Message.KeyPressed (Key.char 'D')]).map
        pointerEvents
      = some [Effect.MoveRel (-10000) (-10000), Effect.MoveRel 94 17, Effect.Click] := by
  constructor
  · rfl
  · have htr : (runTrace Rowlink.default
        [Message.SignalReceived, Message.KeyPressed (Key.char 'A'),
         Message.KeyPressed (Key.char 'B'), Message.KeyPressed (Key.char 'D')]).map
        pointerEvents
      = some [Effect.MoveRel (-10000) (-10000),
              Effect.MoveRel
                (f32_round (((1 : ℤ) : ℚ) * cell_w + ((2 : ℤ) : ℚ) * sub_w + sub_w / 2))
                (f32_round (((0 : ℤ) : ℚ) * cell_h + ((1 : ℤ) : ℚ) * sub_h + sub_h / 2)),
              Effect.Click] := rfl
    have hx : f32_round (((1 : ℤ) : ℚ) * cell_w + ((2 : ℤ) : ℚ) * sub_w + sub_w / 2) = 94 := by
      apply f32_round_eq <;> norm_num [cell_w, sub_w, screen_w, grid_padding]
    have hy : f32_round (((0 : ℤ) : ℚ) * cell_h + ((1 : ℤ) : ℚ) * sub_h + sub_h / 2) = 17 := by
      apply f32_round_eq <;> norm_num [cell_h, sub_h, screen_h, grid_padding]
    rw [htr, hx, hy]

/-! ## C2, C3 — Escape does not clear the zoomed cell -/

/-- C2: pressing Escape from the zoomed phase (after activating and typing
"A", "A") hides the overlay, clears the letter buffer and emits no pointer
event, but the zoomed cell is NOT cleared: it remains `some (0, 0)`,
contradicting the claim that the selected cell is cleared. -/
theorem C2_escape_keeps_zoomed_cell :
    runMsgs Rowlink.default
        [Message.SignalReceived, Message.KeyPressed (Key.char 'A'),
         Message.KeyPressed (Key.char 'A'), Message.KeyPressed Key.escape]
      = some (⟨[], false, some 2, some (0, 0), 3⟩,
              [Effect.RemoveWindow 1, Effect.OpenSurface 0 overlaySettings,
               Effect.RemoveWindow 0, Effect.OpenSurface 2 ghostSettings]) ∧
    (Rowlink.mk [] false (some 2) (some (0, 0)) 3).zoomed_cell ≠ none ∧
    phase ⟨[], false, some 2, some (0, 0), 3⟩ = Phase.Idle ∧
    pointerEvents [Effect.RemoveWindow 1, Effect.OpenSurface 0 overlaySettings,
                   Effect.RemoveWindow 0, Effect.OpenSurface 2 ghostSettings] = [] := by
  refine ⟨by decide, by decide, by decide, by decide⟩

/-- C3: the claimed invariant "`zoomed_cell` is `Some` iff the phase is
`ZoomedOnCell`" is violated in a reachable state: after activating, typing
"A", "A" and pressing Escape the session is `Idle` yet `zoomed_cell` is
still `Some`; a subsequent Activation Signal then starts the session
directly in `ZoomedOnCell 0 0` instead of a fresh main-cell selection. -/
theorem C3_invariant_violated :
    (runMsgs Rowlink.default
        [Message.SignalReceived, Message.KeyPressed (Key.char 'A'),
         Message.KeyPressed (Key.char 'A'), Message.KeyPressed Key.escape]).map
        (fun p => (phase p.1, p.1.zoomed_cell.isSome)) = some (Phase.Idle, true) ∧
    (runMsgs Rowlink.default
        [Message.SignalReceived, Message.KeyPressed (Key.char 'A'),
         Message.KeyPressed (Key.char 'A'), Message.KeyPressed Key.escape,
         Message.SignalReceived]).map (fun p => phase p.1)
      = some (Phase.ZoomedOnCell 0 0) := by
  refine ⟨by decide, by decide⟩

/-! ## C4 — Space confirm -/

/-- C4: pressing Space with a populated surface handle resets the session to
`Idle` (overlay hidden, buffer and zoom cleared), queues the click at the
current partial selection, and the click handler targets the zoomed cell's
center `(col*cell_w + cell_w/2, row*cell_h + cell_h/2)` when a cell is
zoomed, and exactly the screen center (960, 540) when nothing is selected. -/
theorem C4_space_confirm (s : Rowlink) (old_id : ℕ) (r c : ℤ)
    (h : s.current_id = some old_id) :
    update s (Message.KeyPressed Key.space) =
      some ({ s with visible := false, input_buffer := [], zoomed_cell := none,
                     current_id := some s.next_id, next_id := s.next_id + 1 },
            [Effect.RemoveWindow old_id,
             Effect.EmitMsg (Message.ExecuteMoveCenter s.zoomed_cell),
             Effect.OpenSurface s.next_id ghostSettings]) ∧
    phase { s with visible := false, input_buffer := [], zoomed_cell := none,
                   current_id := some s.next_id, next_id := s.next_id + 1 } = Phase.Idle ∧
    pointerEvents (executeMoveCenter (some (r, c))) =
      [Effect.MoveRel (-10000) (-10000),
       Effect.MoveRel (f32_round ((c : ℚ) * cell_w + cell_w / 2))
         (f32_round ((r : ℚ) * cell_h + cell_h / 2)),
       Effect.Click] ∧
    pointerEvents (executeMoveCenter none) =
      [Effect.MoveRel (-10000) (-10000), Effect.MoveRel 960 540, Effect.Click] := by
  refine ⟨?_, rfl, rfl, ?_⟩
  · simp only [update, h]
  · have h960 : f32_round (screen_w / 2) = 960 := by
      apply f32_round_eq <;> norm_num [screen_w]
    have h540 : f32_round (screen_h / 2) = 540 := by
      apply f32_round_eq <;> norm_num [screen_h]
    calc pointerEvents (executeMoveCenter none)
        = [Effect.MoveRel (-10000) (-10000),
           Effect.MoveRel (f32_round (screen_w / 2)) (f32_round (screen_h / 2)),
           Effect.Click] := rfl
      _ = [Effect.MoveRel (-10000) (-10000), Effect.MoveRel 960 540, Effect.Click] := by
          rw [h960, h540]

/-- C4 witness: `C4_space_confirm` instantiated at the concrete state
`⟨[], true, some 7, some (2, 3), 9⟩`, with the cell-center move evaluated
to the concrete pixel (258, 104). -/
theorem C4_space_confirm_witness :
    update ⟨[], true, some 7, some (2, 3), 9⟩ (Message.KeyPressed Key.space) =
      some (⟨[], false, some 9, none, 10⟩,
            [Effect.RemoveWindow 7,
             Effect.EmitMsg (Message.ExecuteMoveCenter (some (2, 3))),
             Effect.OpenSurface 9 ghostSettings]) ∧
    phase ⟨[], false, some 9, none, 10⟩ = Phase.Idle ∧
    pointerEvents (executeMoveCenter (some (2, 3))) =
      [Effect.MoveRel (-10000) (-10000), Effect.MoveRel 258 104, Effect.Click] ∧
    pointerEvents (executeMoveCenter none) =
      [Effect.MoveRel (-10000) (-10000), Effect.MoveRel 960 540, Effect.Click] := by
  have H := C4_space_confirm ⟨[], true, some 7, some (2, 3), 9⟩ 7 2 3 rfl
  refine ⟨H.1, H.2.1, ?_, H.2.2.2⟩
  rw [H.2.2.1]
  have hx : f32_round ((3 : ℚ) * cell_w + cell_w / 2) = 258 := by
    apply f32_round_eq <;> norm_num [cell_w, screen_w]
  have hy : f32_round ((2 : ℚ) * cell_h + cell_h / 2) = 104 := by
    apply f32_round_eq <;> norm_num [cell_h, screen_h]
  norm_num [hx, hy]

/-! ## C5 — two letters drive the session to the zoomed cell -/

/-- C5: for every row, col < 26, activating and feeding the letters
`chr(65+row)` then `chr(65+col)` drives the session to
`ZoomedOnCell row col` — first letter = row, second = column — with the
letter buffer cleared and no pointer event emitted yet. -/
theorem C5_two_letters (row : ℕ) (hr : row < 26) (col : ℕ) (hc : col < 26) :
    ((runMsgs Rowlink.default
        [Message.SignalReceived,
         Message.KeyPressed (Key.char (Char.ofNat (65 + row))),
         Message.KeyPressed (Key.char (Char.ofNat (65 + col)))]).map
        (fun p => (phase p.1, p.1.input_buffer, p.1.zoomed_cell,
                   pointerEvents (p.2.flatMap (drainAction p.1))))).getD
        (Phase.Idle, [], none, [])
      = (Phase.ZoomedOnCell (row : ℤ) (col : ℤ), [], some ((row : ℤ), (col : ℤ)), []) := by
  revert row hr col hc
  decide

/-- C5 witness: `C5_two_letters` at row 0, col 1 (the letters "A", "B"). -/
theorem C5_two_letters_witness :
    ((runMsgs Rowlink.default
        [Message.SignalReceived,
         Message.KeyPressed (Key.char (Char.ofNat (65 + 0))),
         Message.KeyPressed (Key.char (Char.ofNat (65 + 1)))]).map
        (fun p => (phase p.1, p.1.input_buffer, p.1.zoomed_cell,
                   pointerEvents (p.2.flatMap (drainAction p.1))))).getD
        (Phase.Idle, [], none, [])
      = (Phase.ZoomedOnCell 0 1, [], some (0, 1), []) :=
  C5_two_letters 0 (by decide) 1 (by decide)

/-! ## C6 — injection ordering -/

/-- C6: for every completed click — the precision path and both cases of the
Space/confirm path — the injected pointer events are, in strict order and
with nothing else between them: the clamp `move_relative(-10000, -10000)`,
one `move_relative` to the rounded resolved target, and exactly one click. -/
theorem C6_injection_order (main_row main_col sub_row sub_col r c : ℤ) :
    pointerEvents (executeMovePrecision main_row main_col sub_row sub_col) =
      [Effect.MoveRel (-10000) (-10000),
       Effect.MoveRel
         (f32_round ((main_col : ℚ) * cell_w + (sub_col : ℚ) * sub_w + sub_w / 2))
         (f32_round ((main_row : ℚ) * cell_h + (sub_row : ℚ) * sub_h + sub_h / 2)),
       Effect.Click] ∧
    pointerEvents (executeMoveCenter (some (r, c))) =
      [Effect.MoveRel (-10000) (-10000),
       Effect.MoveRel (f32_round ((c : ℚ) * cell_w + cell_w / 2))
         (f32_round ((r : ℚ) * cell_h + cell_h / 2)),
       Effect.Click] ∧
    pointerEvents (executeMoveCenter none) =
      [Effect.MoveRel (-10000) (-10000),
       Effect.MoveRel (f32_round (screen_w / 2)) (f32_round (screen_h / 2)),
       Effect.Click] :=
  ⟨rfl, rfl, rfl⟩

/-! ## C7 — subgrid key bijection -/

/-- C7: the 24 subgrid key labels, row by row (Q W E R U I O P / A S D F J K
L ; / Z X C V N M , .), map under `sub_coords` exactly onto the 24 pairs
`(sub_row, sub_col)` in row-major order over {0,1,2} × {0..7}; the keys are
pairwise distinct and so are their images, so the mapping restricted to these
keys is a bijection onto the full subgrid. -/
theorem C7_subgrid_bijection :
    labels.flatten.map sub_coords =
      ((List.range 3).flatMap fun r => (List.range 8).map fun c =>
        some ((r : ℤ), (c : ℤ))) ∧
    labels.flatten.Nodup ∧
    (labels.flatten.map sub_coords).Nodup ∧
    labels.flatten.length = 24 := by
  refine ⟨by decide, by decide, by decide, by decide⟩

/-! ## C8 — surface swap ordering -/

/-- C8 counterexample: on activation from the initial state the emitted
layer-shell request batch is `[RemoveWindow 1, OpenSurface 0 ...]` — the
destruction of the old handle is requested at position 0, BEFORE the new
surface's open request at position 1, refuting the claimed
new-surface-before-old-destruction ordering. -/
theorem C8_counterexample :
    (update Rowlink.default Message.SignalReceived).map Prod.snd =
      some [Effect.RemoveWindow 1, Effect.OpenSurface 0 overlaySettings] ∧
    [Effect.RemoveWindow 1, Effect.OpenSurface 0 overlaySettings].indexOf
        (Effect.RemoveWindow 1) = 0 ∧
    [Effect.RemoveWindow 1, Effect.OpenSurface 0 overlaySettings].indexOf
        (Effect.OpenSurface 0 overlaySettings) = 1 := by
  refine ⟨by decide, by decide, by decide⟩

/-- C8 (amended): one handle is tracked at a time and every swap batch has
the shape `RemoveWindow old :: mid ++ [OpenSurface new]` with no other
surface request in between, the new handle being stored in `current_id`
before any request is dispatched — i.e. the old handle's destruction request
precedes the new surface's open request in the emitted batch. -/
theorem C8_swap_order (s : Rowlink) (m : Message) (s' : Rowlink) (acts : List Effect)
    (h : update s m = some (s', acts)) (id0 : ℕ) (st0 : NewLayerShellSettings)
    (hmem : Effect.OpenSurface id0 st0 ∈ acts) :
    s'.current_id = some id0 ∧
    ∃ old mid, acts = Effect.RemoveWindow old :: (mid ++ [Effect.OpenSurface id0 st0]) ∧
      ∀ a ∈ mid, (∀ i st1, a ≠ Effect.OpenSurface i st1) ∧
        (∀ i, a ≠ Effect.RemoveWindow i) := by
  cases m with
  | Startup =>
      simp only [update, Option.some.injEq, Prod.mk.injEq] at h
      obtain ⟨rfl, rfl⟩ := h
      simp at hmem
  | SignalReceived =>
      simp only [update, Option.some.injEq, Prod.mk.injEq] at h
      obtain ⟨rfl, rfl⟩ := h
      simp only [List.mem_cons, List.mem_singleton, List.not_mem_nil, or_false] at hmem
      rcases hmem with h1 | h1
      · exact absurd h1 (by simp)
      · obtain ⟨rfl, rfl⟩ : id0 = s.next_id ∧ st0 = overlaySettings := by
          simpa using h1
        exact ⟨rfl, _, [], rfl, by simp⟩
  | KeyPressed k =>
      cases k with
      | escape =>
          simp only [update] at h
          split at h
          · exact absurd h (by simp)
          · simp only [Option.some.injEq, Prod.mk.injEq] at h
            obtain ⟨rfl, rfl⟩ := h
            simp only [List.mem_cons, List.mem_singleton, List.not_mem_nil, or_false] at hmem
            rcases hmem with h1 | h1
            · exact absurd h1 (by simp)
            · obtain ⟨rfl, rfl⟩ : id0 = s.next_id ∧ st0 = ghostSettings := by
                simpa using h1
              exact ⟨rfl, _, [], rfl, by simp⟩
      | space =>
          simp only [update] at h
          split at h
          · exact absurd h (by simp)
          · simp only [Option.some.injEq, Prod.mk.injEq] at h
            obtain ⟨rfl, rfl⟩ := h
            simp only [List.mem_cons, List.not_mem_nil, or_false] at hmem
            rcases hmem with h1 | h1 | h1
            · exact absurd h1 (by simp)
            · exact absurd h1 (by simp)
            · obtain ⟨rfl, rfl⟩ : id0 = s.next_id ∧ st0 = ghostSettings := by
                simpa using h1
              refine ⟨rfl, _, [Effect.EmitMsg (Message.ExecuteMoveCenter s.zoomed_cell)],
                rfl, ?_⟩
              simp
      | char c =>
          simp only [update, handleChar] at h
          split at h
          · split at h <;>
              · simp only [Option.some.injEq, Prod.mk.injEq] at h
                obtain ⟨rfl, rfl⟩ := h
                simp at hmem
          · split at h
            · split at h
              · exact absurd h (by simp)
              · simp only [Option.some.injEq, Prod.mk.injEq] at h
                obtain ⟨rfl, rfl⟩ := h
                simp only [List.mem_cons, List.not_mem_nil, or_false] at hmem
                rcases hmem with h1 | h1 | h1
                · exact absurd h1 (by simp)
                · exact absurd h1 (by simp)
                · obtain ⟨rfl, rfl⟩ : id0 = s.next_id ∧ st0 = ghostSettings := by
                    simpa using h1
                  refine ⟨rfl, _, [Effect.EmitMsg (Message.ExecuteMovePrecision _ _ _ _)],
                    rfl, ?_⟩
                  simp
            · simp only [Option.some.injEq, Prod.mk.injEq] at h
              obtain ⟨rfl, rfl⟩ := h
              simp at hmem
      | otherNamed =>
          simp only [update, Option.some.injEq, Prod.mk.injEq] at h
          obtain ⟨rfl, rfl⟩ := h
          simp at hmem
  | ExecuteMovePrecision mr mc sr sc =>
      simp only [update, Option.some.injEq, Prod.mk.injEq] at h
      obtain ⟨rfl, rfl⟩ := h
      simp [executeMovePrecision] at hmem
  | ExecuteMoveCenter cell =>
      simp only [update, Option.some.injEq, Prod.mk.injEq] at h
      obtain ⟨rfl, rfl⟩ := h
      simp [executeMoveCenter] at hmem
  | OtherEvent =>
      simp only [update, Option.some.injEq, Prod.mk.injEq] at h
      obtain ⟨rfl, rfl⟩ := h
      simp at hmem

/-- C8 witness: `C8_swap_order` at a concrete zoomed state and the Space
key: the batch is `RemoveWindow 5 :: [EmitMsg ...] ++ [OpenSurface 7 ...]`
and the stored handle is the new one. -/
theorem C8_swap_order_witness :
    (Rowlink.mk [] false (some 7) none 8).current_id = some 7 ∧
    ∃ old mid,
      [Effect.RemoveWindow 5,
       Effect.EmitMsg (Message.ExecuteMoveCenter (some (1, 2))),
       Effect.OpenSurface 7 ghostSettings]
        = Effect.RemoveWindow old :: (mid ++ [Effect.OpenSurface 7 ghostSettings]) ∧
      ∀ a ∈ mid, (∀ i st1, a ≠ Effect.OpenSurface i st1) ∧
        (∀ i, a ≠ Effect.RemoveWindow i) :=
  C8_swap_order ⟨[], true, some 5, some (1, 2), 7⟩ (Message.KeyPressed Key.space)
    ⟨[], false, some 7, none, 8⟩
    [Effect.RemoveWindow 5, Effect.EmitMsg (Message.ExecuteMoveCenter (some (1, 2))),
     Effect.OpenSurface 7 ghostSettings] rfl 7 ghostSettings (by decide)

/-! ## C9 — the surface-handle unwraps never fail -/

/-- Every `update` step from a state with a populated surface handle
succeeds (no `unwrap` panic) and keeps the handle populated. -/
theorem update_keeps_handle (s : Rowlink) (m : Message)
    (hs : s.current_id.isSome = true) :
    ∃ s' acts, update s m = some (s', acts) ∧ s'.current_id.isSome = true := by
  obtain ⟨i, hi⟩ := Option.isSome_iff_exists.mp hs
  cases m with
  | Startup => exact ⟨_, _, rfl, hs⟩
  | SignalReceived => exact ⟨_, _, rfl, rfl⟩
  | KeyPressed k =>
      cases k with
      | escape =>
          exact ⟨⟨[], false, some s.next_id, s.zoomed_cell, s.next_id + 1⟩,
                 [Effect.RemoveWindow i, Effect.OpenSurface s.next_id ghostSettings],
                 by simp only [update, hi], rfl⟩
      | space =>
          exact ⟨⟨[], false, some s.next_id, none, s.next_id + 1⟩,
                 [Effect.RemoveWindow i,
                  Effect.EmitMsg (Message.ExecuteMoveCenter s.zoomed_cell),
                  Effect.OpenSurface s.next_id ghostSettings],
                 by simp only [update, hi], rfl⟩
      | otherNamed => exact ⟨_, _, rfl, hs⟩
      | char c =>
          cases hz : s.zoomed_cell with
          | none =>
              rcases hbuf : (if is_ascii_uppercase (to_ascii_uppercase c)
                  then s.input_buffer ++ [to_ascii_uppercase c]
                  else s.input_buffer) with _ | ⟨c0, _ | ⟨c1, rest⟩⟩
              · exact ⟨⟨[], s.visible, s.current_id, s.zoomed_cell, s.next_id⟩, [],
                       by simp only [update, handleChar, hz, hbuf], hs⟩
              · exact ⟨⟨[c0], s.visible, s.current_id, s.zoomed_cell, s.next_id⟩, [],
                       by simp only [update, handleChar, hz, hbuf], hs⟩
              · exact ⟨⟨[], s.visible, s.current_id,
                        some (letter_index c0, letter_index c1), s.next_id⟩, [],
                       by simp only [update, handleChar, hz, hbuf], hs⟩
          | some mc =>
              cases hsc : sub_coords c with
              | none =>
                  exact ⟨s, [], by simp only [update, handleChar, hz, hsc], hs⟩
              | some sc =>
                  exact ⟨⟨[], false, some s.next_id, none, s.next_id + 1⟩,
                         [Effect.RemoveWindow i,
                          Effect.EmitMsg
                            (Message.ExecuteMovePrecision mc.1 mc.2 sc.1 sc.2),
                          Effect.OpenSurface s.next_id ghostSettings],
                         by simp only [update, handleChar, hz, hsc, hi], rfl⟩
  | ExecuteMovePrecision mr mc sr sc => exact ⟨_, _, rfl, hs⟩
  | ExecuteMoveCenter cell => exact ⟨_, _, rfl, hs⟩
  | OtherEvent => exact ⟨_, _, rfl, hs⟩

/-- Running any message list from a state with a populated surface handle
never panics. -/
theorem runMsgs_isSome_of_handle (ms : List Message) :
    ∀ s : Rowlink, s.current_id.isSome = true → (runMsgs s ms).isSome = true := by
  induction ms with
  | nil => intro s _; rfl
  | cons m ms ih =>
      intro s hs
      obtain ⟨s', acts, hup, hs'⟩ := update_keeps_handle s m hs
      obtain ⟨⟨s'', acts'⟩, hp⟩ := Option.isSome_iff_exists.mp (ih s' hs')
      simp only [runMsgs, hup, hp]
      rfl

/-- Handlers of non-keyboard messages never read the surface handle, so
they succeed from every state. -/
theorem update_nonkey_isSome (s : Rowlink) (m : Message)
    (hm : ∀ k, m ≠ Message.KeyPressed k) :
    ∃ s' acts, update s m = some (s', acts) := by
  cases m with
  | KeyPressed k => exact absurd rfl (hm k)
  | Startup => exact ⟨_, _, rfl⟩
  | SignalReceived => exact ⟨_, _, rfl⟩
  | ExecuteMovePrecision mr mc sr sc => exact ⟨_, _, rfl⟩
  | ExecuteMoveCenter cell => exact ⟨_, _, rfl⟩
  | OtherEvent => exact ⟨_, _, rfl⟩

/-- C9: if the Activation Signal is processed before the first keyboard
event (any non-keyboard messages may precede it), the whole run never hits
the missing-surface-handle panic: every Escape, Space and subgrid-completion
transition finds `current_id` populated, so its `unwrap` succeeds. -/
theorem C9_no_missing_handle (pre ms : List Message)
    (hpre : ∀ m ∈ pre, ∀ k, m ≠ Message.KeyPressed k) :
    (runMsgs Rowlink.default (pre ++ Message.SignalReceived :: ms)).isSome = true := by
  suffices h : ∀ s : Rowlink,
      (runMsgs s (pre ++ Message.SignalReceived :: ms)).isSome = true from
    h Rowlink.default
  revert hpre
  induction pre with
  | nil =>
      intro _ s
      have hs1 : ((Rowlink.mk [] true (some s.next_id) s.zoomed_cell
          (s.next_id + 2)).current_id).isSome = true := rfl
      obtain ⟨⟨s'', acts'⟩, hp⟩ :=
        Option.isSome_iff_exists.mp (runMsgs_isSome_of_handle ms _ hs1)
      simp only [List.nil_append, runMsgs, update, hp]
      rfl
  | cons m pre ih =>
      intro hpre s
      obtain ⟨s', acts, hup⟩ :=
        update_nonkey_isSome s m (hpre m (List.mem_cons_self m pre))
      have hrest := ih (fun m' h' k => hpre m' (List.mem_cons_of_mem m h') k) s'
      obtain ⟨⟨s'', acts'⟩, hp⟩ := Option.isSome_iff_exists.mp hrest
      simp only [List.cons_append, runMsgs, hup, List.append_eq, hp]
      rfl

/-- C9 witness: a run with a non-keyboard message before the signal and all
three handle-reading keyboard transitions afterwards does not panic. -/
theorem C9_no_missing_handle_witness :
    (runMsgs Rowlink.default
        ([Message.Startup] ++ Message.SignalReceived ::
          [Message.KeyPressed (Key.char 'A'), Message.KeyPressed (Key.char 'A'),
           Message.KeyPressed (Key.char 'D'), Message.KeyPressed Key.escape,
           Message.KeyPressed Key.space])).isSome = true :=
  C9_no_missing_handle [Message.Startup]
    [Message.KeyPressed (Key.char 'A'), Message.KeyPressed (Key.char 'A'),
     Message.KeyPressed (Key.char 'D'), Message.KeyPressed Key.escape,
     Message.KeyPressed Key.space]
    (by intro m hm k; rw [List.mem_singleton] at hm; subst hm; simp)

/-! ## C10 — lowercase keys behave like uppercase keys -/

/-- The 26 lowercase ASCII letters. -/
def lowercase_letters : List Char :=
  ['a', 'b', 'c', 'd', 'e', 'f', 'g', 'h', 'i', 'j', 'k', 'l', 'm',
   'n', 'o', 'p', 'q', 'r', 's', 't', 'u', 'v', 'w', 'x', 'y', 'z']

/-- The character handler depends on the key only through its uppercased
form (the main-cell stage) and its subgrid mapping (the zoomed stage). -/
theorem handleChar_congr (s : Rowlink) (c c' : Char)
    (h1 : to_ascii_uppercase c = to_ascii_uppercase c')
    (h2 : sub_coords c = sub_coords c') :
    handleChar s c = handleChar s c' := by
  unfold handleChar
  rw [h1, h2]

/-- C10: pressing a lowercase letter key behaves, in every state and hence
in both stages, exactly like the corresponding uppercase key: the character
is uppercased before being buffered and decoded, and the subgrid mapping
gives both forms the same `(sub_row, sub_col)`. -/
theorem C10_lowercase_equiv (s : Rowlink) (c : Char) (hc : c ∈ lowercase_letters) :
    update s (Message.KeyPressed (Key.char c)) =
      update s (Message.KeyPressed (Key.char (to_ascii_uppercase c))) ∧
    sub_coords c = sub_coords (to_ascii_uppercase c) := by
  have H : ∀ x ∈ lowercase_letters,
      to_ascii_uppercase x = to_ascii_uppercase (to_ascii_uppercase x) ∧
      sub_coords x = sub_coords (to_ascii_uppercase x) := by decide
  obtain ⟨h1, h2⟩ := H c hc
  refine ⟨?_, h2⟩
  show handleChar s c = handleChar s (to_ascii_uppercase c)
  exact handleChar_congr s c (to_ascii_uppercase c) h1 h2

/-- C10 witness: `C10_lowercase_equiv` at the initial state and the key
"a", whose uppercased form is "A". -/
theorem C10_lowercase_equiv_witness :
    update Rowlink.default (Message.KeyPressed (Key.char 'a')) =
      update Rowlink.default (Message.KeyPressed (Key.char (to_ascii_uppercase 'a'))) ∧
    sub_coords 'a' = sub_coords (to_ascii_uppercase 'a') :=
  C10_lowercase_equiv Rowlink.default 'a' (by decide)
